import Mathlib

/-!
Shallow embedding of the wotstat-chrome-devtools-protocol bridge
(`CDPView.py`, `CDPServer.py`) and proofs about its claims.

Conventions:
* Python dicts are modelled as association lists with canonical
  "erase then append" update (Python 2 dicts are unordered, keys unique).
* Exceptions that the source lets propagate are modelled with
  `Except String`; exceptions the source catches are turned into log
  entries, exactly where the source logs them.
* Callbacks are opaque values of a type parameter `κ`; an "invocation"
  is recorded in the output rather than executed.
-/

set_option autoImplicit false

namespace WotstatCDP

universe u v

/-! ### Python dict as an association list -/

/-- `m[k]` lookup (`None` when absent; bindings are unique, so the first
match is the binding). -/
def dget {α : Type u} {β : Type v} [DecidableEq α] : List (α × β) → α → Option β
  | [], _ => none
  | p :: rest, k => if p.1 = k then some p.2 else dget rest k

/-- `m[k] = v` assignment: the unique binding for `k` becomes `v`. -/
def dset {α : Type u} {β : Type v} [DecidableEq α] (m : List (α × β)) (k : α) (v : β) :
    List (α × β) :=
  m.filter (fun p => decide (p.1 ≠ k)) ++ [(k, v)]

/-- `m.pop(k, None)` / `del m[k]`: remove the binding for `k` (no-op when absent). -/
def dpop {α : Type u} {β : Type v} [DecidableEq α] (m : List (α × β)) (k : α) :
    List (α × β) :=
  m.filter (fun p => decide (p.1 ≠ k))

/-! ### CDPModel (`CDPView.py` lines 22-99): request/response correlator

Fields mirror `CDPModel.__init__`: `requestsQueue = []`, `callbacks = {}`,
`requestId = 0`, `lastRequestReceived = True`.  `_finalize` sets the queue
and the callback map to `None`, hence the `Option`. -/

structure Session (π : Type u) (κ : Type v) where
  requestsQueue : Option (List (Nat × π × Option κ))
  callbacks : Option (List (Nat × κ))
  requestId : Nat
  lastRequestReceived : Bool
deriving DecidableEq, Repr

def initSession {π : Type u} {κ : Type v} : Session π κ :=
  ⟨some [], some [], 0, true⟩

/-- Parsed body of an inbound `response` message: `response.get('id', None)`
and `response.get('result', None)`. -/
structure RespMsg (ρ : Type u) where
  id : Option Nat
  result : Option ρ
deriving DecidableEq, Repr

/-- Observable output of one step: `tx` are the strings handed to
`__setRequest` (modelled as id/payload pairs), `calls` the callback
invocations, `logs` the `logger.error` lines, `assigned` the request ids
handed out by `sendRequest`, `armed` the number of `BigWorld.callback`
timers armed. -/
structure Out (π : Type u) (κ : Type v) (ρ : Type u) where
  tx : List (Nat × π)
  calls : List (κ × Option ρ)
  logs : List String
  assigned : List Nat
  armed : Nat
deriving DecidableEq, Repr

def Out.empty {π : Type u} {κ : Type v} {ρ : Type u} : Out π κ ρ :=
  ⟨[], [], [], [], 0⟩

def Out.app {π : Type u} {κ : Type v} {ρ : Type u} (a b : Out π κ ρ) : Out π κ ρ :=
  ⟨a.tx ++ b.tx, a.calls ++ b.calls, a.logs ++ b.logs, a.assigned ++ b.assigned,
    a.armed + b.armed⟩

/-- `CDPModel.__processNextRequest` (lines 68-78).  Transmits the oldest
queued request when the previous one has been acknowledged; records the
callback in the pending map (line 74) before `__setRequest` runs (line 75).
A `None` queue or a `None` callback map hit by an assignment raise
`TypeError`, which this method does not catch. -/
def processNextRequest {π : Type u} {κ : Type v} (s : Session π κ) :
    Except String (Session π κ × List (Nat × π)) :=
  match s.requestsQueue with
  | none => Except.error "TypeError: object of type NoneType has no len()"
  | some [] => Except.ok (s, [])
  | some ((rid, req, cb) :: rest) =>
    if s.lastRequestReceived then
      match cb with
      | none =>
        Except.ok ({ s with
          requestsQueue := some rest
          lastRequestReceived := false }, [(rid, req)])
      | some c =>
        match s.callbacks with
        | none => Except.error "TypeError: NoneType object does not support item assignment"
        | some cbs =>
          Except.ok ({ s with
            requestsQueue := some rest
            lastRequestReceived := false
            callbacks := some (dset cbs rid c) }, [(rid, req)])
    else Except.ok (s, [])

/-- `CDPModel.sendRequest` (lines 56-62): restore a `None` queue to `[]`,
assign the next id, append, then try to transmit. -/
def sendRequest {π : Type u} {κ : Type v} {ρ : Type u} (s : Session π κ)
    (request : π) (callback : Option κ) :
    Except String (Session π κ × Out π κ ρ) :=
  match processNextRequest { s with
      requestsQueue := some (s.requestsQueue.getD [] ++ [(s.requestId + 1, request, callback)])
      requestId := s.requestId + 1 } with
  | Except.error e => Except.error e
  | Except.ok (s₂, t) =>
    Except.ok (s₂,
      { tx := t, calls := [], logs := [], assigned := [s.requestId + 1], armed := 0 })

/-- `CDPModel.clearRequests` (lines 64-66). -/
def clearRequests {π : Type u} {κ : Type v} (s : Session π κ) : Session π κ :=
  match s.requestsQueue with
  | none => s
  | some _ => { s with requestsQueue := some [] }

/-- `CDPModel.__onRequestReceived` (lines 80-83): open the gate, transmit
the next queued request. -/
def onRequestReceived {π : Type u} {κ : Type v} {ρ : Type u} (s : Session π κ) :
    Except String (Session π κ × Out π κ ρ) :=
  match processNextRequest { s with lastRequestReceived := true } with
  | Except.error e => Except.error e
  | Except.ok (s₂, t) =>
    Except.ok (s₂, { tx := t, calls := [], logs := [], assigned := [], armed := 0 })

/-- `CDPModel.__onResponse` (lines 85-95).  The whole body is wrapped in
`try/except`: a JSON parse failure, or the `in` test on a `None` callback
map, is logged and swallowed.  An id with a registered callback pops the
entry and invokes the callback once; an id without one falls through the
`if` silently. -/
def onResponse {π : Type u} {κ : Type v} {ρ : Type u} (s : Session π κ)
    (resp : Except String (RespMsg ρ)) : Session π κ × Out π κ ρ :=
  match resp with
  | Except.error e =>
    (s, { tx := []
          calls := []
          logs := ["CDPView __onResponse error: " ++ e]
          assigned := []
          armed := 0 })
  | Except.ok m =>
    match m.id with
    | none => (s, Out.empty)
    | some rid =>
      match s.callbacks with
      | none =>
        (s, { tx := []
              calls := []
              logs := ["CDPView __onResponse error: argument of type NoneType is not iterable"]
              assigned := []
              armed := 0 })
      | some cbs =>
        match dget cbs rid with
        | none => (s, Out.empty)
        | some cb =>
          ({ s with callbacks := some (dpop cbs rid) },
            { tx := [], calls := [(cb, m.result)], logs := [], assigned := [], armed := 0 })

/-- `CDPModel._finalize` (lines 49-54): unsubscribe the handlers and drop
the queue and the callback map; nothing is transmitted or invoked. -/
def finalizeSession {π : Type u} {κ : Type v} {ρ : Type u} (s : Session π κ) :
    Session π κ × Out π κ ρ :=
  ({ s with requestsQueue := none, callbacks := none }, Out.empty)

/-- Events a session can observe, in the order they are delivered. -/
inductive SEvent (π : Type u) (κ : Type v) (ρ : Type u) where
  | send (request : π) (callback : Option κ)
  | ack
  | response (resp : Except String (RespMsg ρ))
  | finalize

def sstep {π : Type u} {κ : Type v} {ρ : Type u} (s : Session π κ) :
    SEvent π κ ρ → Except String (Session π κ × Out π κ ρ)
  | SEvent.send r cb => sendRequest s r cb
  | SEvent.ack => onRequestReceived s
  | SEvent.response r => Except.ok (onResponse s r)
  | SEvent.finalize => Except.ok (finalizeSession s)

def runS {π : Type u} {κ : Type v} {ρ : Type u} (s : Session π κ) :
    List (SEvent π κ ρ) → Except String (Session π κ × Out π κ ρ)
  | [] => Except.ok (s, Out.empty)
  | e :: rest =>
    match sstep s e with
    | Except.error err => Except.error err
    | Except.ok (s₁, o₁) =>
      match runS s₁ rest with
      | Except.error err => Except.error err
      | Except.ok (s₂, o₂) => Except.ok (s₂, o₁.app o₂)

/-! ### CDPView (`CDPView.py` lines 102-165): per-page throttled batcher

The view feeds client commands through a `Queue` and a 1/30 s one-shot
`BigWorld.callback` timer into `CDPModel.sendRequest`.  Payloads handed to
the model are either a drained batch (`throttleFlushRequests`, line 157)
or the literal string `'DISCONNECT'` (`connectionClosed`, line 143). -/

inductive UiPayload (π : Type u) where
  | batch (items : List π)
  | disconnect
deriving DecidableEq, Repr

structure View (π : Type u) (κ : Type v) where
  isThrottled : Bool
  commandQueue : List π
  model : Session (UiPayload π) κ
deriving DecidableEq, Repr

/-- `CDPView.__init__` (lines 106-119): `isThrottled = False`, empty
`commandQueue`, fresh model. -/
def initView {π : Type u} {κ : Type v} : View π κ :=
  ⟨false, [], initSession⟩

/-- `CDPView.throttleSendRequest` (lines 145-150): enqueue; when not yet
throttled, mark throttled and arm one `BigWorld.callback(1/30, ...)` timer.
The returned `Nat` counts the timers armed by this call. -/
def throttleSendRequest {π : Type u} {κ : Type v} (v : View π κ) (request : π) :
    View π κ × Nat :=
  let v₁ : View π κ := { v with commandQueue := v.commandQueue ++ [request] }
  if v₁.isThrottled then (v₁, 0)
  else ({ v₁ with isThrottled := true }, 1)

/-- `CDPView.throttleFlushRequests` (lines 152-158): drain the queue into
`batch`, hand it to `CDPModel.sendRequest` as one payload, clear the flag. -/
def throttleFlushRequests {π : Type u} {κ : Type v} {ρ : Type u} (v : View π κ) :
    Except String (View π κ × Out (UiPayload π) κ ρ) :=
  let batch := v.commandQueue
  match sendRequest (ρ := ρ) v.model (UiPayload.batch batch) none with
  | Except.error e => Except.error e
  | Except.ok (m, o) =>
    Except.ok ({ isThrottled := false, commandQueue := [], model := m }, o)

/-- `CDPView.connectionClosed` (lines 138-143): drain and discard the
command queue, clear the model's request queue, then enqueue one
`'DISCONNECT'` request.  Pending callbacks are not touched. -/
def connectionClosed {π : Type u} {κ : Type v} {ρ : Type u} (v : View π κ) :
    Except String (View π κ × Out (UiPayload π) κ ρ) :=
  let m₁ := clearRequests v.model
  match sendRequest (ρ := ρ) m₁ UiPayload.disconnect none with
  | Except.error e => Except.error e
  | Except.ok (m₂, o) =>
    Except.ok ({ v with commandQueue := [], model := m₂ }, o)

/-- Events a view can observe: `cmd` is `commandReceived` (a frame from
the client), `flush` is the throttle timer firing, `ack` and `response`
are the UI's `requestReceived`/`response` commands, `closed` is
`connectionClosed`, `finalize` is `CDPModel._finalize`. -/
inductive VEvent (π : Type u) (κ : Type v) (ρ : Type u) where
  | cmd (c : π)
  | flush
  | ack
  | response (resp : Except String (RespMsg ρ))
  | closed
  | finalize

def vstep {π : Type u} {κ : Type v} {ρ : Type u} (v : View π κ) :
    VEvent π κ ρ → Except String (View π κ × Out (UiPayload π) κ ρ)
  | VEvent.cmd c =>
    let r := throttleSendRequest v c
    Except.ok (r.1, { tx := [], calls := [], logs := [], assigned := [], armed := r.2 })
  | VEvent.flush => throttleFlushRequests v
  | VEvent.ack =>
    match onRequestReceived (ρ := ρ) v.model with
    | Except.error e => Except.error e
    | Except.ok (m, o) => Except.ok ({ v with model := m }, o)
  | VEvent.response r =>
    let p := onResponse v.model r
    Except.ok ({ v with model := p.1 }, p.2)
  | VEvent.closed => connectionClosed v
  | VEvent.finalize =>
    let p := finalizeSession (ρ := ρ) v.model
    Except.ok ({ v with model := p.1 }, p.2)

def runV {π : Type u} {κ : Type v} {ρ : Type u} (v : View π κ) :
    List (VEvent π κ ρ) → Except String (View π κ × Out (UiPayload π) κ ρ)
  | [] => Except.ok (v, Out.empty)
  | e :: rest =>
    match vstep v e with
    | Except.error err => Except.error err
    | Except.ok (v₁, o₁) =>
      match runV v₁ rest with
      | Except.error err => Except.error err
      | Except.ok (v₂, o₂) => Except.ok (v₂, o₁.app o₂)

/-! ### CDPServer (`CDPServer.py`): registry, clients map, dispatch -/

/-- The data of a registered `CDPView` the server reads: `pageId` and
`pageName` (`CDPView.__init__` lines 112-113, both immutable after
construction). -/
structure PageView where
  pageId : String
  pageName : String
deriving DecidableEq, Repr

/-- A live `WSClient` socket: `cid` distinguishes sockets, `sendResult`
is the behaviour of `send_message_text` on it (success or the raised
error's message). -/
structure Conn where
  cid : Nat
  sendResult : Except String Unit
deriving Repr

/-- `WSClient.viewId` (lines 74-80): when `path.startswith('/ws/')`, the
suffix `path[4:]`, else `None`. -/
def pathViewId (path : String) : Option String :=
  match path.data with
  | '/' :: 'w' :: 's' :: '/' :: rest => some (String.mk rest)
  | _ => none

/-- `CDPServer.viewPopulate` (lines 106-108): `views[view.pageId] = view`. -/
def viewPopulate (views : List (String × PageView)) (v : PageView) :
    List (String × PageView) :=
  dset views v.pageId v

/-- `CDPServer.viewDispose` (lines 110-113): delete the entry if present. -/
def viewDispose (views : List (String × PageView)) (v : PageView) :
    List (String × PageView) :=
  dpop views v.pageId

/-- Registry operations reachable from an empty `views` dict. -/
inductive RegOp where
  | populate (v : PageView)
  | dispose (v : PageView)

def regStep (views : List (String × PageView)) : RegOp → List (String × PageView)
  | RegOp.populate v => viewPopulate views v
  | RegOp.dispose v => viewDispose views v

def regRun (ops : List RegOp) : List (String × PageView) :=
  ops.foldl regStep []

/-- `WSClient.connected` (lines 66-68): `clients[self.viewId] = self`
(keyed by `Option`, since `viewId` is `None` off the `/ws/` path). -/
def wsConnected (clients : List (Option String × Conn)) (viewId : Option String)
    (c : Conn) : List (Option String × Conn) :=
  dset clients viewId c

/-- `WSClient.handle_close` (lines 70-72): `clients.pop(self.viewId, None)`.
Only the closing socket's `viewId` is consulted, never its identity. -/
def wsHandleClose (clients : List (Option String × Conn)) (viewId : Option String) :
    List (Option String × Conn) :=
  dpop clients viewId

/-- `CDPServer.onViewCommand` (lines 115-121): forward to the view when
registered, else log. -/
def onViewCommand {π : Type u} (views : List (String × PageView)) (viewId : String)
    (command : π) : List (String × π) × List String :=
  match dget views viewId with
  | none => ([], ["viewCommand: viewId " ++ viewId ++ " not found"])
  | some _ => ([(viewId, command)], [])

/-- Result of `WSClient.handle` on one inbound frame: the `views` dict
after the call (`handle` performs no dict writes), the commands forwarded
into `CDPServer.onViewCommand`, the logged errors, and whether the
connection was closed (`handle` never closes it). -/
structure HandleOut (π : Type u) where
  views : List (String × PageView)
  forwards : List (String × π)
  logs : List String
  closed : Bool
deriving DecidableEq, Repr

/-- `WSClient.handle` (lines 53-64): silently return when the server
instance is gone, the path is not `/ws/...`, or the page id is not
registered; then parse JSON (logged and dropped on failure) and forward.
`instPresent` models `instance is not None`; `pdata` is the outcome of
`json.loads(self.data)`. -/
def wsHandle {π : Type u} (instPresent : Bool) (views : List (String × PageView))
    (path : String) (pdata : Except String π) : HandleOut π :=
  if !instPresent then ⟨views, [], [], false⟩
  else
    match pathViewId path with
    | none => ⟨views, [], [], false⟩
    | some vid =>
      if (dget views vid).isNone then ⟨views, [], [], false⟩
      else
        match pdata with
        | Except.error e => ⟨views, [], ["Invalid command JSON: " ++ e], false⟩
        | Except.ok cmd =>
          let r := onViewCommand views vid cmd
          ⟨views, r.1, r.2, false⟩

/-- Result of `CDPServer.sendViewCommand`: the frames written to sockets
(socket id, frame) and the logged errors.  The function is total: the
`try/except` around `send_message_text` keeps write errors from
propagating to the caller. -/
structure SendOut where
  sent : List (Nat × String)
  logs : List String
deriving DecidableEq, Repr

/-- `CDPServer.sendViewCommand` (lines 123-132). -/
def sendViewCommand (clients : List (Option String × Conn)) (viewId : String)
    (command : String) : SendOut :=
  match dget clients (some viewId) with
  | none => ⟨[], ["sendViewCommand: viewId " ++ viewId ++ " not connected"]⟩
  | some c =>
    match c.sendResult with
    | Except.ok _ => ⟨[(c.cid, command)], []⟩
    | Except.error e => ⟨[], ["sendViewCommand error: " ++ e]⟩

/-! ### Serve loop and shutdown (`CDPServer.py` lines 84-148) -/

/-- State of the listening server: `enabled` (`CDPServer.enabled`),
the number of live connections (`server.connections`), and whether the
listening socket is open. -/
structure ServerLoopState where
  enabled : Bool
  connections : Nat
  listening : Bool
deriving DecidableEq, Repr

/-- One unit of work `server.handle_request()` may perform. -/
inductive LoopEvent where
  | accept
  | frame (desc : String)
  | disconnect
  | ioError (msg : String)

/-- The `while` guard of `CDPServer._requestLoop` (line 100). -/
def loopGuard (s : ServerLoopState) : Bool :=
  s.enabled || s.connections != 0

/-- Modelled from the spec: the body of `server.handle_request()` lives in
the vendored `simple_websocket_server` module, which is not under `src/`.
Per spec §4.1 it accepts connections, reads/writes frames, and drops
closing connections; per lines 101-104 of `CDPServer.py` any exception it
raises is caught and logged, and the loop continues.  The `List String`
is the client-visible activity of the iteration. -/
def handleRequest (s : ServerLoopState) : LoopEvent → ServerLoopState × List String
  | LoopEvent.accept => ({ s with connections := s.connections + 1 }, ["accept"])
  | LoopEvent.frame d => (s, ["frame:" ++ d])
  | LoopEvent.disconnect => ({ s with connections := s.connections - 1 }, ["close"])
  | LoopEvent.ioError m => (s, ["log:Error in requestLoop: " ++ m])

/-- `CDPServer._requestLoop` (lines 98-104) driven by a finite schedule of
environment events: iterate `handle_request` while the guard holds. -/
def runLoop (s : ServerLoopState) : List LoopEvent → ServerLoopState × List String
  | [] => (s, [])
  | e :: rest =>
    if loopGuard s then
      let p := handleRequest s e
      let q := runLoop p.1 rest
      (q.1, p.2 ++ q.2)
    else (s, [])

/-- Modelled from the spec: `WebSocketServer.close` is in the vendored
`simple_websocket_server` module, not under `src/`.  Spec §5 requires
shutdown to "(1) stop accepting new connections, (2) close all live
connections", so `close` shuts the listening socket and drops every live
connection. -/
def serverClose (s : ServerLoopState) : ServerLoopState :=
  { s with connections := 0, listening := false }

/-- `CDPServer.dispose` (lines 134-148): clear `enabled`, close the
server, then `serverThread.join()` — modelled by running the loop to
completion on whatever events remain before returning. -/
def disposeServer (s : ServerLoopState) (pending : List LoopEvent) :
    ServerLoopState × List String :=
  let s₁ : ServerLoopState := { s with enabled := false }
  let s₂ := serverClose s₁
  runLoop s₂ pending

/-! ### `GET /json/list` (`CDPServer.py` lines 30-49)

The body is built by raw `%`-interpolation of `view.pageId` and
`view.pageName` into a fixed template, with no JSON escaping.  The
template below reproduces the Python triple-quoted literal byte for
byte; the holes appear in source order
`(port, pageId, pageId, pageName, pageId, port, pageId)`. -/

def lit0 : String :=
  "\n            \x7b\n              \"devtoolsFrontendUrl\": \"devtools://devtools/bundled/inspector.html?ws=localhost:"

def lit1 : String := "/ws/"

def lit2 : String := "\",\n              \"id\": \""

def lit3 : String := "\",\n              \"title\": \""

def lit4 : String :=
  "\",\n              \"type\": \"page\",\n              \"url\": \"wot://wotstat-cdp-"

def lit5 : String := "\",\n              \"webSocketDebuggerUrl\": \"ws://localhost:"

def lit7 : String := "\"\n            \x7d\n          "

/-- One element of the `/json/list` array (lines 36-45); `%d` renders a
`Nat` port in decimal, i.e. `Nat.repr`. -/
def viewItem (port : Nat) (v : PageView) : String :=
  lit0 ++ Nat.repr port ++ lit1 ++ v.pageId ++ lit2 ++ v.pageId ++ lit3 ++ v.pageName ++
    lit4 ++ v.pageId ++ lit5 ++ Nat.repr port ++ lit1 ++ v.pageId ++ lit7

/-- `','.join(items)`. -/
def joinComma : List String → String
  | [] => ""
  | [x] => x
  | x :: y :: rest => x ++ "," ++ joinComma (y :: rest)

/-- `'[%s]' % ','.join(items)` (line 47), over the registry's values. -/
def jsonListBody (port : Nat) (vs : List PageView) : String :=
  "[" ++ joinComma (vs.map (viewItem port)) ++ "]"

/-! ### A JSON well-formedness checker

A single-pass lexer (character automaton) followed by a pushdown check of
the token stream, together deciding RFC-8259 well-formedness of a text.
Used to settle the "output is valid JSON" parts of the spec. -/

inductive Tok where
  | lbrace | rbrace | lbrack | rbrack | colon | comma | str | num | lit
deriving DecidableEq, Repr

inductive LexMode where
  | top
  | strM
  | escM
  | hexM (k : Nat)
  | nStart
  | nZero
  | nDigits
  | nFrac0
  | nFrac
  | nExp0
  | nExp1
  | nExpD
  | litM (rest : List Char)
  | err
deriving DecidableEq, Repr

structure LexSt where
  mode : LexMode
  toks : List Tok
deriving DecidableEq, Repr

def isWsChar (c : Char) : Bool :=
  c = ' ' || c = '\n' || c = '\t' || c = '\r'

def isHexChar (c : Char) : Bool :=
  c.isDigit || ('a' ≤ c && c ≤ 'f') || ('A' ≤ c && c ≤ 'F')

/-- Lexing a character in value position (outside strings and numbers):
the next mode and the tokens emitted (newest first). -/
def topDelta (c : Char) : LexMode × List Tok :=
  if isWsChar c then (LexMode.top, [])
  else if c = '\x7b' then (LexMode.top, [Tok.lbrace])
  else if c = '\x7d' then (LexMode.top, [Tok.rbrace])
  else if c = '[' then (LexMode.top, [Tok.lbrack])
  else if c = ']' then (LexMode.top, [Tok.rbrack])
  else if c = ':' then (LexMode.top, [Tok.colon])
  else if c = ',' then (LexMode.top, [Tok.comma])
  else if c = '\"' then (LexMode.strM, [])
  else if c = '-' then (LexMode.nStart, [])
  else if c = '0' then (LexMode.nZero, [])
  else if c.isDigit then (LexMode.nDigits, [])
  else if c = 't' then (LexMode.litM ['r', 'u', 'e'], [])
  else if c = 'f' then (LexMode.litM ['a', 'l', 's', 'e'], [])
  else if c = 'n' then (LexMode.litM ['u', 'l', 'l'], [])
  else (LexMode.err, [])

/-- A number token ends at `c`; emit it and lex `c` in value position. -/
def numEndDelta (c : Char) : LexMode × List Tok :=
  ((topDelta c).1, (topDelta c).2 ++ [Tok.num])

/-- One lexer transition: next mode and emitted tokens (newest first). -/
def lexDelta (m : LexMode) (c : Char) : LexMode × List Tok :=
  match m with
  | LexMode.top => topDelta c
  | LexMode.strM =>
    if c = '\"' then (LexMode.top, [Tok.str])
    else if c = '\\' then (LexMode.escM, [])
    else if c.val < 32 then (LexMode.err, [])
    else (LexMode.strM, [])
  | LexMode.escM =>
    if c = '\"' || c = '\\' || c = '/' || c = 'b' || c = 'f' || c = 'n' || c = 'r' || c = 't'
    then (LexMode.strM, [])
    else if c = 'u' then (LexMode.hexM 4, [])
    else (LexMode.err, [])
  | LexMode.hexM k =>
    if isHexChar c then
      if k ≤ 1 then (LexMode.strM, []) else (LexMode.hexM (k - 1), [])
    else (LexMode.err, [])
  | LexMode.nStart =>
    if c = '0' then (LexMode.nZero, [])
    else if c.isDigit then (LexMode.nDigits, [])
    else (LexMode.err, [])
  | LexMode.nZero =>
    if c = '.' then (LexMode.nFrac0, [])
    else if c = 'e' || c = 'E' then (LexMode.nExp0, [])
    else if c.isDigit then (LexMode.err, [])
    else numEndDelta c
  | LexMode.nDigits =>
    if c.isDigit then (LexMode.nDigits, [])
    else if c = '.' then (LexMode.nFrac0, [])
    else if c = 'e' || c = 'E' then (LexMode.nExp0, [])
    else numEndDelta c
  | LexMode.nFrac0 =>
    if c.isDigit then (LexMode.nFrac, []) else (LexMode.err, [])
  | LexMode.nFrac =>
    if c.isDigit then (LexMode.nFrac, [])
    else if c = 'e' || c = 'E' then (LexMode.nExp0, [])
    else numEndDelta c
  | LexMode.nExp0 =>
    if c = '+' || c = '-' then (LexMode.nExp1, [])
    else if c.isDigit then (LexMode.nExpD, [])
    else (LexMode.err, [])
  | LexMode.nExp1 =>
    if c.isDigit then (LexMode.nExpD, []) else (LexMode.err, [])
  | LexMode.nExpD =>
    if c.isDigit then (LexMode.nExpD, []) else numEndDelta c
  | LexMode.litM rest =>
    match rest with
    | [] => ((topDelta c).1, (topDelta c).2 ++ [Tok.lit])
    | r :: rs => if c = r then (LexMode.litM rs, []) else (LexMode.err, [])
  | LexMode.err => (LexMode.err, [])

def lexStep (s : LexSt) (c : Char) : LexSt :=
  ⟨(lexDelta s.mode c).1, (lexDelta s.mode c).2 ++ s.toks⟩

/-- Close the lexer at end of input: a dangling string, escape, or broken
number/literal is a lexical error. -/
def lexFinish (s : LexSt) : Option (List Tok) :=
  match s.mode with
  | LexMode.top => some s.toks.reverse
  | LexMode.nZero => some (Tok.num :: s.toks).reverse
  | LexMode.nDigits => some (Tok.num :: s.toks).reverse
  | LexMode.nFrac => some (Tok.num :: s.toks).reverse
  | LexMode.nExpD => some (Tok.num :: s.toks).reverse
  | LexMode.litM [] => some (Tok.lit :: s.toks).reverse
  | _ => none

def lexJson (cs : List Char) : Option (List Tok) :=
  lexFinish (cs.foldl lexStep ⟨LexMode.top, []⟩)

inductive Frame where
  | arrF | objF
deriving DecidableEq, Repr

inductive Expect where
  | val
  | valOrEnd
  | afterVal
  | keyOrEnd
  | keyE
  | colonE
  | done
deriving DecidableEq, Repr

structure GSt where
  stack : List Frame
  expect : Expect
deriving DecidableEq, Repr

/-- The expectation after a complete value, given the remaining stack. -/
def completedE (st : List Frame) : Expect :=
  match st with
  | [] => Expect.done
  | _ :: _ => Expect.afterVal

def gstep (g : GSt) (t : Tok) : Option GSt :=
  match g.expect with
  | Expect.val =>
    match t with
    | Tok.str => some ⟨g.stack, completedE g.stack⟩
    | Tok.num => some ⟨g.stack, completedE g.stack⟩
    | Tok.lit => some ⟨g.stack, completedE g.stack⟩
    | Tok.lbrack => some ⟨Frame.arrF :: g.stack, Expect.valOrEnd⟩
    | Tok.lbrace => some ⟨Frame.objF :: g.stack, Expect.keyOrEnd⟩
    | _ => none
  | Expect.valOrEnd =>
    match t with
    | Tok.str => some ⟨g.stack, Expect.afterVal⟩
    | Tok.num => some ⟨g.stack, Expect.afterVal⟩
    | Tok.lit => some ⟨g.stack, Expect.afterVal⟩
    | Tok.lbrack => some ⟨Frame.arrF :: g.stack, Expect.valOrEnd⟩
    | Tok.lbrace => some ⟨Frame.objF :: g.stack, Expect.keyOrEnd⟩
    | Tok.rbrack =>
      match g.stack with
      | Frame.arrF :: rest => some ⟨rest, completedE rest⟩
      | _ => none
    | _ => none
  | Expect.afterVal =>
    match t, g.stack with
    | Tok.comma, Frame.arrF :: _ => some ⟨g.stack, Expect.val⟩
    | Tok.comma, Frame.objF :: _ => some ⟨g.stack, Expect.keyE⟩
    | Tok.rbrack, Frame.arrF :: rest => some ⟨rest, completedE rest⟩
    | Tok.rbrace, Frame.objF :: rest => some ⟨rest, completedE rest⟩
    | _, _ => none
  | Expect.keyOrEnd =>
    match t with
    | Tok.str => some ⟨g.stack, Expect.colonE⟩
    | Tok.rbrace =>
      match g.stack with
      | Frame.objF :: rest => some ⟨rest, completedE rest⟩
      | _ => none
    | _ => none
  | Expect.keyE =>
    match t with
    | Tok.str => some ⟨g.stack, Expect.colonE⟩
    | _ => none
  | Expect.colonE =>
    match t with
    | Tok.colon => some ⟨g.stack, Expect.val⟩
    | _ => none
  | Expect.done => none

def grun (g : GSt) : List Tok → Option GSt
  | [] => some g
  | t :: ts =>
    match gstep g t with
    | none => none
    | some g' => grun g' ts

/-- A text is well-formed JSON when it lexes and the token stream forms
exactly one complete value. -/
def jsonWF (s : String) : Bool :=
  match lexJson s.data with
  | none => false
  | some ts =>
    match grun ⟨[], Expect.val⟩ ts with
    | some ⟨[], Expect.done⟩ => true
    | _ => false

/-- Characters that pass through a JSON string body unescaped: anything
but `"`, `\` and control characters. -/
def safeChar (c : Char) : Bool :=
  decide (¬(c = '\"') ∧ ¬(c = '\\') ∧ ¬(c.val < 32))

def safeStr (s : String) : Bool :=
  s.data.all safeChar

/-! ### Auxiliary definitions used by the statements -/

/-- Number of bindings a dict holds for a key. -/
def countKey {α : Type u} {β : Type v} [DecidableEq α] (m : List (α × β)) (k : α) : Nat :=
  (m.filter (fun p => decide (p.1 = k))).length

def isSend {π : Type u} {κ : Type v} {ρ : Type u} : SEvent π κ ρ → Bool
  | SEvent.send _ _ => true
  | _ => false

def isAck {π : Type u} {κ : Type v} {ρ : Type u} : SEvent π κ ρ → Bool
  | SEvent.ack => true
  | _ => false

/-- Number of `sendRequest` calls in a session trace. -/
def countSends {π : Type u} {κ : Type v} {ρ : Type u} (tr : List (SEvent π κ ρ)) : Nat :=
  (tr.filter isSend).length

/-- Number of `requestReceived` acknowledgements in a session trace. -/
def countAcks {π : Type u} {κ : Type v} {ρ : Type u} (tr : List (SEvent π κ ρ)) : Nat :=
  (tr.filter isAck).length

/-- 1 while a transmitted request awaits its acknowledgement. -/
def gateBit {π : Type u} {κ : Type v} (s : Session π κ) : Nat :=
  if s.lastRequestReceived then 0 else 1

/-- The `id` fields emitted by `/json/list`, one per registered view. -/
def pageIds (views : List (String × PageView)) : List String :=
  views.map (fun p => p.2.pageId)

/-- The debugger URL `/json/list` advertises for a page. -/
def wsUrl (port : Nat) (pid : String) : String :=
  "ws://localhost:" ++ Nat.repr port ++ "/ws/" ++ pid

/-- Token stream of one `/json/list` entry (independent of the
interpolated names, as long as they are `safeChar`). -/
def entryToks : List Tok :=
  [Tok.lbrace,
   Tok.str, Tok.colon, Tok.str, Tok.comma,
   Tok.str, Tok.colon, Tok.str, Tok.comma,
   Tok.str, Tok.colon, Tok.str, Tok.comma,
   Tok.str, Tok.colon, Tok.str, Tok.comma,
   Tok.str, Tok.colon, Tok.str, Tok.comma,
   Tok.str, Tok.colon, Tok.str,
   Tok.rbrace]

/-- Token stream of `n` `/json/list` entries joined by commas. -/
def arrayToks : Nat → List Tok
  | 0 => []
  | 1 => entryToks
  | n + 2 => entryToks ++ Tok.comma :: arrayToks (n + 1)

/-! ## Lemmas about the dict model -/

theorem dget_filter_ne_append {α : Type u} {β : Type v} [DecidableEq α]
    (m : List (α × β)) (k : α) (v : β) :
    dget (m.filter (fun p => decide (p.1 ≠ k)) ++ [(k, v)]) k = some v := by
  induction m with
  | nil => simp [dget]
  | cons p rest ih =>
    by_cases hp : p.1 = k
    · simpa [List.filter_cons, hp] using ih
    · simpa [List.filter_cons, hp, dget] using ih

theorem dget_dset_self {α : Type u} {β : Type v} [DecidableEq α]
    (m : List (α × β)) (k : α) (v : β) :
    dget (dset m k v) k = some v :=
  dget_filter_ne_append m k v

theorem dget_dpop_self {α : Type u} {β : Type v} [DecidableEq α]
    (m : List (α × β)) (k : α) :
    dget (dpop m k) k = none := by
  unfold dpop
  induction m with
  | nil => rfl
  | cons p rest ih =>
    by_cases hp : p.1 = k
    · simpa [List.filter_cons, hp] using ih
    · simpa [List.filter_cons, hp, dget] using ih

theorem dget_dset_ne {α : Type u} {β : Type v} [DecidableEq α]
    (m : List (α × β)) (k k' : α) (v : β) (h : k' ≠ k) :
    dget (dset m k v) k' = dget m k' := by
  unfold dset
  induction m with
  | nil => simp [dget, Ne.symm h]
  | cons p rest ih =>
    by_cases hp : p.1 = k
    · have hp' : ¬(p.1 = k') := by rw [hp]; exact Ne.symm h
      simpa [List.filter_cons, hp, dget, hp', Ne.symm h] using ih
    · by_cases hq : p.1 = k'
      · simp [List.filter_cons, hp, dget, hq, h]
      · simpa [List.filter_cons, hp, dget, hq] using ih

theorem dpop_absent {α : Type u} {β : Type v} [DecidableEq α]
    (m : List (α × β)) (k : α) (h : dget m k = none) :
    dpop m k = m := by
  unfold dpop
  induction m with
  | nil => rfl
  | cons p rest ih =>
    by_cases hp : p.1 = k
    · exfalso
      simp [dget, hp] at h
    · have h' : dget rest k = none := by simpa [dget, hp] using h
      rw [List.filter_cons, if_pos (by simp [hp]), ih h']

theorem countKey_dset_self {α : Type u} {β : Type v} [DecidableEq α]
    (m : List (α × β)) (k : α) (v : β) :
    countKey (dset m k v) k = 1 := by
  unfold countKey dset
  rw [List.filter_append]
  have h1 : (m.filter (fun p => decide (p.1 ≠ k))).filter (fun p => decide (p.1 = k)) = [] := by
    induction m with
    | nil => rfl
    | cons p rest ih =>
      by_cases hp : p.1 = k
      · simp [List.filter_cons, hp, ih]
      · simp [List.filter_cons, hp, ih]
  rw [h1]
  simp

theorem countKey_dpop_self {α : Type u} {β : Type v} [DecidableEq α]
    (m : List (α × β)) (k : α) :
    countKey (dpop m k) k = 0 := by
  unfold countKey dpop
  induction m with
  | nil => rfl
  | cons p rest ih =>
    by_cases hp : p.1 = k
    · simp [List.filter_cons, hp, ih]
    · simp [List.filter_cons, hp, ih]

/-! ## C10 — the connection map -/

/-- **C10.** The `clients` map holds at most one connection per path id
and behaves last-writer-wins: a second socket connecting to the same
`/ws/<PageId>` path replaces the first; `handle_close` keys on the
closing socket's `viewId` only, so it removes whichever connection is
currently mapped (even when the closing socket is not the mapped one),
and it is a no-op — never an error — when the entry is already absent. -/
theorem c10_connection_map :
    (∀ (m : List (Option String × Conn)) (vid : Option String) (c₁ c₂ : Conn),
      dget (wsConnected (wsConnected m vid c₁) vid c₂) vid = some c₂) ∧
    (∀ (m : List (Option String × Conn)) (vid : Option String) (c : Conn),
      countKey (wsConnected m vid c) vid = 1) ∧
    (∀ (m : List (Option String × Conn)) (vid : Option String),
      dget (wsHandleClose m vid) vid = none ∧ countKey (wsHandleClose m vid) vid = 0) ∧
    (∀ (m : List (Option String × Conn)) (vid : Option String),
      dget m vid = none → wsHandleClose m vid = m) := by
  refine ⟨?_, ?_, ?_, ?_⟩
  · intro m vid c₁ c₂
    exact dget_dset_self _ vid c₂
  · intro m vid c
    exact countKey_dset_self m vid c
  · intro m vid
    exact ⟨dget_dpop_self m vid, countKey_dpop_self m vid⟩
  · intro m vid h
    exact dpop_absent m vid h

/-- Witness for C10's hypothesised conjunct: closing an absent entry on a
concrete map leaves it unchanged. -/
theorem c10_connection_map_witness :
    wsHandleClose [(some "a", ⟨1, Except.ok ()⟩)] (some "b") =
      [(some "a", ⟨1, Except.ok ()⟩)] :=
  c10_connection_map.2.2.2 [(some "a", ⟨1, Except.ok ()⟩)] (some "b") (by rfl)

/-! ## C6 — `dispatchOutbound` / `CDPServer.sendViewCommand` -/

/-- **C6.** Dispatching an outbound frame for a page: with no active
connection it logs "not connected" and returns (no frame written);
with a connection it writes the frame, and a write error is caught and
logged.  `sendViewCommand` is a total function into `SendOut`, so no
error propagates to the caller in any case. -/
theorem c6_dispatch_outbound :
    (∀ (clients : List (Option String × Conn)) (vid : String) (cmd : String),
      dget clients (some vid) = none →
      sendViewCommand clients vid cmd =
        ⟨[], ["sendViewCommand: viewId " ++ vid ++ " not connected"]⟩) ∧
    (∀ (clients : List (Option String × Conn)) (vid : String) (cmd : String) (c : Conn),
      dget clients (some vid) = some c →
      (c.sendResult = Except.ok () →
        sendViewCommand clients vid cmd = ⟨[(c.cid, cmd)], []⟩) ∧
      (∀ e, c.sendResult = Except.error e →
        sendViewCommand clients vid cmd = ⟨[], ["sendViewCommand error: " ++ e]⟩)) := by
  constructor
  · intro clients vid cmd h
    simp [sendViewCommand, h]
  · intro clients vid cmd c h
    constructor
    · intro hs
      simp [sendViewCommand, h, hs]
    · intro e hs
      simp [sendViewCommand, h, hs]

/-- C6 applied at concrete inputs: absent page, healthy socket, and a
socket whose write raises. -/
theorem c6_dispatch_outbound_witness :
    sendViewCommand [] "View#1" "cmd" =
      ⟨[], ["sendViewCommand: viewId View#1 not connected"]⟩ ∧
    sendViewCommand [(some "View#1", ⟨5, Except.ok ()⟩)] "View#1" "cmd" =
      ⟨[(5, "cmd")], []⟩ ∧
    sendViewCommand [(some "View#1", ⟨5, Except.error "broken pipe"⟩)] "View#1" "cmd" =
      ⟨[], ["sendViewCommand error: broken pipe"]⟩ := by
  refine ⟨?_, ?_, ?_⟩
  · exact c6_dispatch_outbound.1 [] "View#1" "cmd" (by rfl)
  · exact (c6_dispatch_outbound.2 [(some "View#1", ⟨5, Except.ok ()⟩)] "View#1" "cmd"
      ⟨5, Except.ok ()⟩ (by rfl)).1 (by rfl)
  · exact (c6_dispatch_outbound.2 [(some "View#1", ⟨5, Except.error "broken pipe"⟩)] "View#1"
      "cmd" ⟨5, Except.error "broken pipe"⟩ (by rfl)).2 "broken pipe" (by rfl)

/-! ## C5 — inbound frame for an unregistered PageId -/

/-- **C5 counterexample.** A frame arriving on `/ws/View#1` while no such
page is registered is dropped with *no* log line (`WSClient.handle` line
56 is a bare `return`), contradicting the claim that the frame is
"dropped with a logged error".  The rest of the claim holds: nothing is
forwarded, the registry is untouched, the connection stays open. -/
theorem c5_counterexample_no_log :
    (wsHandle true [] "/ws/View#1" (Except.ok "cmd") : HandleOut String) =
      ⟨[], [], [], false⟩ := by rfl

/-- **C5 (amended).** An inbound frame whose `/ws/<PageId>` path does not
match a registered page is dropped *silently*: no log, no forward, no
exception (`wsHandle` is total), no registry mutation, and the connection
is not closed; independently, `WSClient.connected` registers the socket
in the clients map whether or not the page is known, so the connection is
accepted and kept. -/
theorem c5_unknown_page {π : Type} (views : List (String × PageView))
    (clients : List (Option String × Conn)) (path : String) (vid : String)
    (pdata : Except String π) (c : Conn)
    (hpath : pathViewId path = some vid) (habs : dget views vid = none) :
    wsHandle true views path pdata = ⟨views, [], [], false⟩ ∧
    dget (wsConnected clients (some vid) c) (some vid) = some c := by
  constructor
  · simp [wsHandle, hpath, habs]
  · exact dget_dset_self clients (some vid) c

/-- C5 applied at a concrete unregistered page. -/
theorem c5_unknown_page_witness :
    wsHandle true [] "/ws/View#1" (Except.ok "x") = ⟨[], [], [], false⟩ ∧
    dget (wsConnected [] (some "View#1") ⟨3, Except.ok ()⟩) (some "View#1") =
      some ⟨3, Except.ok ()⟩ :=
  c5_unknown_page [] [] "/ws/View#1" "View#1" (Except.ok "x") ⟨3, Except.ok ()⟩
    (by rfl) (by rfl)

/-! ## C2 — pending-callback correlation -/

/-- **C2 counterexample.** End-to-end run: register callback `7` via
`sendRequest` (it gets RequestId 1), then deliver the inbound response
`{"id": 1, "result": "ok"}` twice.  The callback fires exactly once, but
the duplicate response produces *no* log line (`__onResponse` lines 91-93
fall through the `if` silently), contradicting the claim that a second
identical inbound message "is logged". -/
theorem c2_counterexample_silent_duplicate :
    runS (π := String) (κ := Nat) (ρ := String) initSession
      [SEvent.send "r" (some 7),
       SEvent.response (Except.ok ⟨some 1, some "ok"⟩),
       SEvent.response (Except.ok ⟨some 1, some "ok"⟩)] =
      Except.ok (⟨some [], some [], 1, false⟩, ⟨[(1, "r")], [(7, some "ok")], [], [1], 0⟩) := by
  rfl

/-- **C2 (amended).** A response whose id has a registered callback pops
the entry (so it is gone afterwards) and invokes the callback exactly
once with the response's `result`; a response whose id has no pending
entry — in particular a duplicate — is ignored *silently*, with no
invocation, no log, and no state change; and session destruction removes
every pending entry without invoking anything. -/
theorem c2_callback_fired_once {π : Type u} {κ : Type v} {ρ : Type u}
    (s : Session π κ) (cbs : List (Nat × κ)) (rid : Nat) (r : Option ρ)
    (hcb : s.callbacks = some cbs) :
    (∀ cb, dget cbs rid = some cb →
      onResponse s (Except.ok ⟨some rid, r⟩) =
        ({ s with callbacks := some (dpop cbs rid) },
         { tx := [], calls := [(cb, r)], logs := [], assigned := [], armed := 0 }) ∧
      dget (dpop cbs rid) rid = none) ∧
    (dget cbs rid = none →
      onResponse s (Except.ok ⟨some rid, r⟩) = (s, Out.empty)) ∧
    finalizeSession (ρ := ρ) s =
      ({ s with requestsQueue := none, callbacks := none }, Out.empty) := by
  refine ⟨?_, ?_, rfl⟩
  · intro cb hget
    refine ⟨?_, dget_dpop_self cbs rid⟩
    simp [onResponse, hcb, hget]
  · intro hget
    simp [onResponse, hcb, hget, Out.empty]

/-- C2 applied at a concrete session: one registered callback, a matching
response, then the same response against the popped map. -/
theorem c2_callback_fired_once_witness :
    (onResponse (⟨some [], some [(1, 7)], 1, false⟩ : Session String Nat)
        (Except.ok ⟨some 1, some "ok"⟩) =
      (⟨some [], some [], 1, false⟩,
       { tx := [], calls := [(7, some "ok")], logs := [], assigned := [], armed := 0 }) ∧
      dget (dpop [(1, 7)] 1) 1 = none) ∧
    onResponse (⟨some [], some [], 1, false⟩ : Session String Nat)
        (Except.ok ⟨some 1, (some "ok" : Option String)⟩) =
      (⟨some [], some [], 1, false⟩, Out.empty) := by
  constructor
  · exact (c2_callback_fired_once (⟨some [], some [(1, 7)], 1, false⟩ : Session String Nat)
      [(1, 7)] 1 (some "ok") rfl).1 7 (by rfl)
  · exact (c2_callback_fired_once (⟨some [], some [], 1, false⟩ : Session String Nat)
      [] 1 (some "ok") rfl).2.1 (by rfl)

/-! ## C3 — session teardown -/

/-- **C3 counterexample.** Session teardown (the page is unregistered, so
`CDPModel._finalize` runs) on a session with one pending callback and one
queued outbound item: the callbacks and the queue are dropped, but *zero*
transmissions happen — no synthesized disconnect notice is delivered,
contradicting "exactly one synthesized disconnect notice is delivered".
(The only code that synthesizes `'DISCONNECT'` is
`CDPView.connectionClosed`, which is not part of finalization — and no
caller of it exists anywhere in the repository.) -/
theorem c3_counterexample_no_disconnect_on_finalize :
    vstep (π := String) (κ := Nat) (ρ := String)
        ⟨false, [], ⟨some [(2, UiPayload.batch ["x"], none)], some [(1, 7)], 2, true⟩⟩
        VEvent.finalize =
      Except.ok (⟨false, [], ⟨none, none, 2, true⟩⟩, Out.empty) ∧
    (Out.empty : Out (UiPayload String) Nat String).tx.length ≠ 1 := by
  exact ⟨rfl, by decide⟩

/-- **C3 (amended).** (a) On session teardown (`CDPModel._finalize`) with
M pending callbacks and K queued outbound items, all M callbacks are
dropped without ever being invoked and the K queued items are discarded,
but no disconnect notice is delivered.  (b) The `'DISCONNECT'` notice is
synthesized by `CDPView.connectionClosed` instead, which discards the
queued items and enqueues exactly one `'DISCONNECT'` request — transmitted
immediately when the UI has acknowledged the previous request, left as
the sole queued item otherwise — while the pending callbacks are left in
place (not dropped). -/
theorem c3_teardown {π : Type u} {κ : Type v} {ρ : Type u} (v : View π κ) :
    vstep (ρ := ρ) v VEvent.finalize =
      Except.ok ({ v with model := { v.model with requestsQueue := none, callbacks := none } },
        Out.empty) ∧
    connectionClosed (ρ := ρ) v =
      Except.ok
        ({ v with
            commandQueue := []
            model := {
              requestsQueue :=
                cond v.model.lastRequestReceived (some [])
                  (some [(v.model.requestId + 1, UiPayload.disconnect, none)])
              callbacks := v.model.callbacks
              requestId := v.model.requestId + 1
              lastRequestReceived := false } },
         { tx := cond v.model.lastRequestReceived
             [(v.model.requestId + 1, UiPayload.disconnect)] []
           calls := []
           logs := []
           assigned := [v.model.requestId + 1]
           armed := 0 }) := by
  constructor
  · rfl
  · obtain ⟨th, cq, m⟩ := v
    obtain ⟨rq, cbs, ridv, gate⟩ := m
    cases rq with
    | none =>
      cases gate <;>
        simp [connectionClosed, clearRequests, sendRequest, processNextRequest]
    | some q =>
      cases gate <;>
        simp [connectionClosed, clearRequests, sendRequest, processNextRequest]

/-! ## Shared lemmas about the session state machine -/

theorem runS_cons_ok {π : Type u} {κ : Type v} {ρ : Type u}
    {s s' : Session π κ} {o : Out π κ ρ} {e : SEvent π κ ρ} {rest : List (SEvent π κ ρ)}
    (h : runS s (e :: rest) = Except.ok (s', o)) :
    ∃ s₁ o₁ o₂, sstep s e = Except.ok (s₁, o₁) ∧ runS s₁ rest = Except.ok (s', o₂) ∧
      o = o₁.app o₂ := by
  unfold runS at h
  split at h
  · exact Except.noConfusion h
  · rename_i s1 o1 hstep
    split at h
    · exact Except.noConfusion h
    · rename_i s2 o2 hrun
      have h' := Except.ok.inj h
      refine ⟨s1, o1, o2, hstep, ?_, ?_⟩
      · rw [hrun]
        rw [show s2 = s' from congrArg Prod.fst h']
      · exact (congrArg Prod.snd h').symm

theorem processNext_ok_facts {π : Type u} {κ : Type v} {s s' : Session π κ}
    {t : List (Nat × π)} (h : processNextRequest s = Except.ok (s', t)) :
    s'.requestId = s.requestId ∧ t.length + gateBit s ≤ gateBit s' := by
  unfold processNextRequest at h
  split at h
  · exact Except.noConfusion h
  · cases h
    exact ⟨rfl, by simp⟩
  · rename_i rid req cb rest heq
    split at h
    · rename_i hgate
      split at h
      · cases h
        exact ⟨rfl, by simp [gateBit, hgate]⟩
      · split at h
        · exact Except.noConfusion h
        · cases h
          exact ⟨rfl, by simp [gateBit, hgate]⟩
    · cases h
      exact ⟨rfl, by simp⟩

theorem sendRequest_ok_facts {π : Type u} {κ : Type v} {ρ : Type u}
    {s s' : Session π κ} {o : Out π κ ρ} {r : π} {cb : Option κ}
    (h : sendRequest s r cb = Except.ok (s', o)) :
    o.assigned = [s.requestId + 1] ∧ o.calls = [] ∧
    s'.requestId = s.requestId + 1 ∧
    o.tx.length + gateBit s ≤ gateBit s' := by
  unfold sendRequest at h
  split at h
  · exact Except.noConfusion h
  · rename_i s2 t hp
    cases h
    have hf := processNext_ok_facts hp
    refine ⟨rfl, rfl, ?_, ?_⟩
    · simpa using hf.1
    · simpa [gateBit] using hf.2

theorem onRequestReceived_ok_facts {π : Type u} {κ : Type v} {ρ : Type u}
    {s s' : Session π κ} {o : Out π κ ρ}
    (h : onRequestReceived s = Except.ok (s', o)) :
    o.assigned = [] ∧ o.calls = [] ∧
    s'.requestId = s.requestId ∧
    o.tx.length + gateBit s ≤ 1 + gateBit s' := by
  unfold onRequestReceived at h
  split at h
  · exact Except.noConfusion h
  · rename_i s2 t hp
    cases h
    have hf := processNext_ok_facts hp
    refine ⟨rfl, rfl, by simpa using hf.1, ?_⟩
    have h2 := hf.2
    have hred : gateBit ({ s with lastRequestReceived := true } : Session π κ) = 0 := by
      simp [gateBit]
    rw [hred] at h2
    have h3 : gateBit s ≤ 1 := by unfold gateBit; split <;> simp
    dsimp only
    omega

theorem onResponse_pre {π : Type u} {κ : Type v} {ρ : Type u}
    (s : Session π κ) (r : Except String (RespMsg ρ)) :
    (onResponse s r).2.tx = [] ∧ (onResponse s r).2.assigned = [] ∧
    (onResponse s r).1.lastRequestReceived = s.lastRequestReceived ∧
    (onResponse s r).1.requestId = s.requestId := by
  unfold onResponse
  split
  · exact ⟨rfl, rfl, rfl, rfl⟩
  · split
    · exact ⟨rfl, rfl, rfl, rfl⟩
    · split
      · exact ⟨rfl, rfl, rfl, rfl⟩
      · split
        · exact ⟨rfl, rfl, rfl, rfl⟩
        · exact ⟨rfl, rfl, rfl, rfl⟩

theorem sstep_ok_facts {π : Type u} {κ : Type v} {ρ : Type u}
    {s s' : Session π κ} {o : Out π κ ρ} {e : SEvent π κ ρ}
    (h : sstep s e = Except.ok (s', o)) :
    o.assigned = (cond (isSend e) [s.requestId + 1] []) ∧
    s'.requestId = s.requestId + (cond (isSend e) 1 0) ∧
    o.tx.length + gateBit s ≤ (cond (isAck e) 1 0) + gateBit s' := by
  cases e with
  | send r cb =>
    have hf := sendRequest_ok_facts (h := h)
    exact ⟨by simpa [isSend] using hf.1, by simpa [isSend] using hf.2.2.1,
      by simpa [isAck] using hf.2.2.2⟩
  | ack =>
    have hf := onRequestReceived_ok_facts (h := h)
    refine ⟨by simpa [isSend] using hf.1, by simpa [isSend] using hf.2.2.1, ?_⟩
    have := hf.2.2.2
    simpa [isAck] using this
  | response r =>
    unfold sstep at h
    have h' := Except.ok.inj h
    have hs : s' = (onResponse s r).1 := (congrArg Prod.fst h').symm
    have ho : o = (onResponse s r).2 := (congrArg Prod.snd h').symm
    subst hs; subst ho
    have hf := onResponse_pre (ρ := ρ) s r
    refine ⟨by simpa [isSend] using hf.2.1, by simpa [isSend] using hf.2.2.2, ?_⟩
    have hg : gateBit (onResponse s r).1 = gateBit s := by
      unfold gateBit; rw [hf.2.2.1]
    simp [isAck, hf.1, hg]
  | finalize =>
    unfold sstep finalizeSession at h
    have h' := Except.ok.inj h
    have hs : s' = { s with requestsQueue := none, callbacks := none } :=
      (congrArg Prod.fst h').symm
    have ho : o = Out.empty := (congrArg Prod.snd h').symm
    subst hs; subst ho
    exact ⟨rfl, by simp [isSend], by simp [isAck, Out.empty, gateBit]⟩

theorem countAcks_cons {π : Type u} {κ : Type v} {ρ : Type u}
    (e : SEvent π κ ρ) (rest : List (SEvent π κ ρ)) :
    countAcks (e :: rest) = (cond (isAck e) 1 0) + countAcks rest := by
  cases e <;> simp [countAcks, List.filter_cons, isAck, Nat.add_comm]

theorem countSends_cons {π : Type u} {κ : Type v} {ρ : Type u}
    (e : SEvent π κ ρ) (rest : List (SEvent π κ ρ)) :
    countSends (e :: rest) = (cond (isSend e) 1 0) + countSends rest := by
  cases e <;> simp [countSends, List.filter_cons, isSend, Nat.add_comm]

theorem runS_ok_facts {π : Type u} {κ : Type v} {ρ : Type u} :
    ∀ (tr : List (SEvent π κ ρ)) (s s' : Session π κ) (o : Out π κ ρ),
    runS s tr = Except.ok (s', o) →
    o.assigned = List.range' (s.requestId + 1) (countSends tr) ∧
    s'.requestId = s.requestId + countSends tr ∧
    o.tx.length + gateBit s ≤ countAcks tr + gateBit s' := by
  intro tr
  induction tr with
  | nil =>
    intro s s' o h
    unfold runS at h
    cases h
    exact ⟨rfl, rfl, by simp [Out.empty, countAcks]⟩
  | cons e rest ih =>
    intro s s' o h
    obtain ⟨s₁, o₁, o₂, hstep, hrun, happ⟩ := runS_cons_ok h
    subst happ
    have hstepf := sstep_ok_facts (h := hstep)
    have ihf := ih s₁ s' o₂ hrun
    refine ⟨?_, ?_, ?_⟩
    · show o₁.assigned ++ o₂.assigned = _
      rw [hstepf.1, ihf.1, hstepf.2.1, countSends_cons]
      rcases hse : isSend e
      · simp
      · have hn : (1 : Nat) + countSends rest = countSends rest + 1 := Nat.add_comm 1 _
        show [s.requestId + 1] ++ List.range' (s.requestId + 1 + 1) (countSends rest) =
          List.range' (s.requestId + 1) (1 + countSends rest)
        rw [hn, List.range'_succ]
        rfl
    · show s'.requestId = _
      rw [ihf.2.1, hstepf.2.1, countSends_cons]
      omega
    · show (o₁.tx ++ o₂.tx).length + gateBit s ≤ _
      rw [countAcks_cons, List.length_append]
      have h1 := hstepf.2.2
      have h2 := ihf.2.2
      omega

/-- **C4.** Across any event sequence on one session, the RequestIds
assigned by `sendRequest` are exactly `1, 2, ..., n` — strictly
increasing, starting at 1, never reused — and when a transmitted request
carries a callback, the callback sits in the pending map in the very
state produced by the transmitting step (line 74 records it before line
75 transmits). -/
theorem c4_request_ids {π : Type u} {κ : Type v} {ρ : Type u} :
    (∀ (tr : List (SEvent π κ ρ)) (s : Session π κ) (o : Out π κ ρ),
      runS initSession tr = Except.ok (s, o) →
      o.assigned = List.range' 1 (countSends tr) ∧
      o.assigned.Pairwise (· < ·) ∧
      o.assigned.Nodup ∧
      (countSends tr ≠ 0 → o.assigned.head? = some 1)) ∧
    (∀ (s : Session π κ) (q : List (Nat × π × Option κ)) (rid : Nat) (req : π) (c : κ)
      (cbs : List (Nat × κ)),
      s.requestsQueue = some ((rid, req, some c) :: q) →
      s.lastRequestReceived = true →
      s.callbacks = some cbs →
      processNextRequest s =
        Except.ok ({ s with
          requestsQueue := some q
          lastRequestReceived := false
          callbacks := some (dset cbs rid c) }, [(rid, req)]) ∧
      dget (dset cbs rid c) rid = some c) := by
  constructor
  · intro tr s o h
    have hf := runS_ok_facts tr initSession s o h
    have h1 : o.assigned = List.range' 1 (countSends tr) := by
      simpa [initSession] using hf.1
    refine ⟨h1, ?_, ?_, ?_⟩
    · rw [h1]; exact List.pairwise_lt_range' 1 (countSends tr)
    · rw [h1]; exact List.nodup_range' 1 (countSends tr)
    · intro hne
      rw [h1]
      cases hcnt : countSends tr with
      | zero => exact absurd hcnt hne
      | succ n => rw [List.range'_succ]; rfl
  · intro s q rid req c cbs hq hg hcb
    constructor
    · simp [processNextRequest, hq, hg, hcb]
    · exact dget_dset_self cbs rid c

/-- C4 applied at a concrete trace (three sends interleaved with an ack
give ids 1, 2, 3) and at a concrete transmitting step with a callback. -/
theorem c4_request_ids_witness :
    (([1, 2, 3] : List Nat) = List.range' 1 3 ∧
     ([1, 2, 3] : List Nat).Pairwise (· < ·) ∧
     ([1, 2, 3] : List Nat).Nodup ∧
     ((3 : Nat) ≠ 0 → ([1, 2, 3] : List Nat).head? = some 1)) ∧
    (processNextRequest (⟨some [(5, "r", some 9)], some [], 4, true⟩ : Session String Nat) =
        Except.ok (⟨some [], some [(5, 9)], 4, false⟩, [(5, "r")]) ∧
     dget [(5, 9)] 5 = some 9) := by
  constructor
  · exact (@c4_request_ids String Nat String).1
      [SEvent.send "a" none, SEvent.ack, SEvent.send "b" (some 7), SEvent.send "c" none]
      ⟨some [(3, "c", none)], some [(2, 7)], 3, false⟩
      ⟨[(1, "a"), (2, "b")], [], [], [1, 2, 3], 0⟩ (by rfl)
  · exact (@c4_request_ids String Nat String).2 ⟨some [(5, "r", some 9)], some [], 4, true⟩
      [] 5 "r" 9 [] rfl rfl rfl

/-- **C9.** The UI request channel is gated to one outstanding request:
a `sendRequest` while the previous request is unacknowledged only
enqueues (no transmission); `requestReceived` transmits exactly the
oldest queued request; and along any event sequence from a fresh session
the number of transmitted requests never exceeds the number of
acknowledgements plus one. -/
theorem c9_single_outstanding {π : Type u} {κ : Type v} {ρ : Type u} :
    (∀ (s : Session π κ) (q : List (Nat × π × Option κ)) (r : π) (cb : Option κ),
      s.requestsQueue = some q → s.lastRequestReceived = false →
      sendRequest (ρ := ρ) s r cb = Except.ok
        ({ s with
            requestsQueue := some (q ++ [(s.requestId + 1, r, cb)])
            requestId := s.requestId + 1 },
         { tx := [], calls := [], logs := [], assigned := [s.requestId + 1], armed := 0 })) ∧
    (∀ (s : Session π κ) (rid : Nat) (req : π) (rest : List (Nat × π × Option κ)),
      s.requestsQueue = some ((rid, req, none) :: rest) →
      onRequestReceived (ρ := ρ) s = Except.ok
        ({ s with requestsQueue := some rest, lastRequestReceived := false },
         { tx := [(rid, req)], calls := [], logs := [], assigned := [], armed := 0 })) ∧
    (∀ (tr : List (SEvent π κ ρ)) (s : Session π κ) (o : Out π κ ρ),
      runS initSession tr = Except.ok (s, o) →
      o.tx.length ≤ countAcks tr + 1) := by
  refine ⟨?_, ?_, ?_⟩
  · intro s q r cb hq hg
    cases q with
    | nil => simp [sendRequest, processNextRequest, hq, hg]
    | cons x xs => simp [sendRequest, processNextRequest, hq, hg]
  · intro s rid req rest hq
    simp [onRequestReceived, processNextRequest, hq]
  · intro tr s o h
    have hf := runS_ok_facts tr initSession s o h
    have h3 := hf.2.2
    have hb : gateBit (initSession (π := π) (κ := κ)) = 0 := by
      simp [initSession, gateBit]
    rw [hb] at h3
    have h4 : gateBit s ≤ 1 := by unfold gateBit; split <;> simp
    omega

/-- C9 applied concretely: a send against a closed gate only queues; an
ack transmits the queued head; a two-send-one-ack trace transmits twice
with one ack. -/
theorem c9_single_outstanding_witness :
    sendRequest (ρ := String) (⟨some [], some [], 0, false⟩ : Session String Nat) "x" none =
      Except.ok (⟨some [(1, "x", none)], some [], 1, false⟩, ⟨[], [], [], [1], 0⟩) ∧
    onRequestReceived (ρ := String)
        (⟨some [(3, "y", none)], some [], 3, false⟩ : Session String Nat) =
      Except.ok (⟨some [], some [], 3, false⟩, ⟨[(3, "y")], [], [], [], 0⟩) ∧
    ([(1, "a"), (2, "b")] : List (Nat × String)).length ≤
      countAcks (π := String) (κ := Nat) (ρ := String)
        [SEvent.send "a" none, SEvent.send "b" none, SEvent.ack] + 1 := by
  refine ⟨?_, ?_, ?_⟩
  · exact (@c9_single_outstanding String Nat String).1 ⟨some [], some [], 0, false⟩ [] "x" none
      rfl rfl
  · exact (@c9_single_outstanding String Nat String).2.1
      ⟨some [(3, "y", none)], some [], 3, false⟩ 3 "y" [] rfl
  · exact (@c9_single_outstanding String Nat String).2.2
      [SEvent.send "a" none, SEvent.send "b" none, SEvent.ack]
      ⟨some [], some [], 2, false⟩
      ⟨[(1, "a"), (2, "b")], [], [], [1, 2], 0⟩ (by rfl)

/-! ## C1 — throttled batch coalescing -/

theorem Out.empty_app {π : Type u} {κ : Type v} {ρ : Type u} (o : Out π κ ρ) :
    Out.empty.app o = o := by
  cases o
  simp [Out.app, Out.empty]

theorem Out.app_empty {π : Type u} {κ : Type v} {ρ : Type u} (o : Out π κ ρ) :
    o.app Out.empty = o := by
  cases o
  simp [Out.app, Out.empty]

theorem runV_cons_of {π : Type u} {κ : Type v} {ρ : Type u}
    {v v₁ v₂ : View π κ} {o₁ o₂ : Out (UiPayload π) κ ρ} {e : VEvent π κ ρ}
    {rest : List (VEvent π κ ρ)}
    (h1 : vstep v e = Except.ok (v₁, o₁)) (h2 : runV v₁ rest = Except.ok (v₂, o₂)) :
    runV v (e :: rest) = Except.ok (v₂, o₁.app o₂) := by
  unfold runV
  rw [h1]
  dsimp only
  rw [h2]

theorem runV_cmds_throttled {π : Type u} {κ : Type v} {ρ : Type u} :
    ∀ (ps : List π) (v : View π κ) (tail : List (VEvent π κ ρ)) (v' : View π κ)
      (o : Out (UiPayload π) κ ρ),
    v.isThrottled = true →
    runV { v with commandQueue := v.commandQueue ++ ps } tail = Except.ok (v', o) →
    runV v (ps.map VEvent.cmd ++ tail) = Except.ok (v', o) := by
  intro ps
  induction ps with
  | nil =>
    intro v tail v' o hth htail
    simpa using htail
  | cons p rest ih =>
    intro v tail v' o hth htail
    have hstep : vstep (ρ := ρ) v (VEvent.cmd p) =
        Except.ok ({ v with commandQueue := v.commandQueue ++ [p] }, Out.empty) := by
      simp [vstep, throttleSendRequest, hth, Out.empty]
    have hlist : v.commandQueue ++ [p] ++ rest = v.commandQueue ++ (p :: rest) := by simp
    have htail' : runV { v with commandQueue := v.commandQueue ++ [p] ++ rest } tail =
        Except.ok (v', o) := by rw [hlist]; exact htail
    have hrec := ih { v with commandQueue := v.commandQueue ++ [p] } tail v' o hth htail'
    have hfin := runV_cons_of hstep hrec
    rw [Out.empty_app] at hfin
    exact hfin

/-- **C1.** All client commands received while one flush interval is
pending are coalesced: the first enqueue arms exactly one 1/30 s timer
(armed = 1 for the whole run), later enqueues are folded into the same
batch, and when the timer fires exactly one frame is handed to the UI —
`{'id': n, 'request': [p, ...ps]}` — carrying every payload in enqueue
order; no other frame is produced. -/
theorem c1_throttle_one_frame {π : Type u} {κ : Type v} {ρ : Type u}
    (p : π) (ps : List π) (v : View π κ)
    (hq : v.commandQueue = []) (hth : v.isThrottled = false)
    (hmq : v.model.requestsQueue = some []) (hgate : v.model.lastRequestReceived = true) :
    runV (ρ := ρ) v ((p :: ps).map VEvent.cmd ++ [VEvent.flush]) =
      Except.ok
        (⟨false, [], ⟨some [], v.model.callbacks, v.model.requestId + 1, false⟩⟩,
         ⟨[(v.model.requestId + 1, UiPayload.batch (p :: ps))], [], [],
          [v.model.requestId + 1], 1⟩) := by
  have h1 : vstep (ρ := ρ) v (VEvent.cmd p) =
      Except.ok ({ v with commandQueue := [p], isThrottled := true },
        ⟨[], [], [], [], 1⟩) := by
    simp [vstep, throttleSendRequest, hth, hq]
  have h3 : runV (ρ := ρ) ({ v with commandQueue := [p] ++ ps, isThrottled := true })
      [VEvent.flush] =
      Except.ok
        (⟨false, [], ⟨some [], v.model.callbacks, v.model.requestId + 1, false⟩⟩,
         ⟨[(v.model.requestId + 1, UiPayload.batch (p :: ps))], [], [],
          [v.model.requestId + 1], 0⟩) := by
    simp [runV, vstep, throttleFlushRequests, sendRequest, processNextRequest, hmq, hgate,
      Out.app_empty]
  have h2 := runV_cmds_throttled (ρ := ρ) ps
    ({ v with commandQueue := [p], isThrottled := true }) [VEvent.flush] _ _ rfl h3
  have hfin := runV_cons_of h1 h2
  show runV v (VEvent.cmd p :: (ps.map VEvent.cmd ++ [VEvent.flush])) = _
  rw [hfin]
  simp [Out.app]

/-- C1 applied at the spec's own example: payloads `A`, `B` enqueued
within one interval on a fresh page yield exactly one frame `[A, B]`. -/
theorem c1_throttle_one_frame_witness :
    runV (ρ := String) (initView : View String Nat)
        [VEvent.cmd "A", VEvent.cmd "B", VEvent.flush] =
      Except.ok
        (⟨false, [], ⟨some [], some [], 1, false⟩⟩,
         ⟨[(1, UiPayload.batch ["A", "B"])], [], [], [1], 1⟩) :=
  c1_throttle_one_frame "A" ["B"] initView rfl rfl rfl rfl

/-! ## C8 — serve loop and shutdown -/

/-- **C8.** The serve loop runs until the shutdown signal: while
`enabled` is set, every iteration — including one whose
`handle_request` raised (the exception is caught and logged) — is
followed by the next.  `dispose` clears `enabled`, closes the listening
socket (spec-modelled `close`, which also drops live connections), and
joins the worker thread: the loop's guard is then false, so the join
returns with no further iteration, and no client-visible activity is
possible after `dispose` returns, whatever events the environment still
offers. -/
theorem c8_shutdown :
    (∀ (s : ServerLoopState) (e : LoopEvent) (evs : List LoopEvent),
      s.enabled = true →
      runLoop s (e :: evs) =
        ((runLoop (handleRequest s e).1 evs).1,
         (handleRequest s e).2 ++ (runLoop (handleRequest s e).1 evs).2)) ∧
    (∀ (s : ServerLoopState) (pending : List LoopEvent),
      disposeServer s pending = (⟨false, 0, false⟩, [])) ∧
    (∀ (evs : List LoopEvent),
      runLoop ⟨false, 0, false⟩ evs = (⟨false, 0, false⟩, [])) := by
  have hstop : ∀ (evs : List LoopEvent),
      runLoop ⟨false, 0, false⟩ evs = (⟨false, 0, false⟩, []) := by
    intro evs
    cases evs with
    | nil => rfl
    | cons e rest => simp [runLoop, loopGuard]
  refine ⟨?_, ?_, hstop⟩
  · intro s e evs hen
    have hg : loopGuard s = true := by simp [loopGuard, hen]
    simp [runLoop, hg]
  · intro s pending
    unfold disposeServer
    exact hstop pending

/-- C8 applied concretely: one enabled iteration proceeds; disposing a
server with two live connections and pending events returns with the
loop terminated and silent; nothing happens on a disposed server. -/
theorem c8_shutdown_witness :
    runLoop ⟨true, 0, true⟩ [LoopEvent.accept] = (⟨true, 1, true⟩, ["accept"]) ∧
    disposeServer ⟨true, 2, true⟩ [LoopEvent.accept, LoopEvent.frame "x"] =
      (⟨false, 0, false⟩, []) ∧
    runLoop ⟨false, 0, false⟩ [LoopEvent.frame "y"] = (⟨false, 0, false⟩, []) :=
  ⟨c8_shutdown.1 ⟨true, 0, true⟩ LoopEvent.accept [] rfl,
   c8_shutdown.2.1 ⟨true, 2, true⟩ [LoopEvent.accept, LoopEvent.frame "x"],
   c8_shutdown.2.2 [LoopEvent.frame "y"]⟩

/-! ## Lemmas about the JSON checker (for C7) -/

theorem lexFold_mode_toks :
    ∀ (cs : List Char) (m : LexMode) (t : List Tok),
    (List.foldl lexStep ⟨m, t⟩ cs).mode = (List.foldl lexStep ⟨m, []⟩ cs).mode ∧
    (List.foldl lexStep ⟨m, t⟩ cs).toks = (List.foldl lexStep ⟨m, []⟩ cs).toks ++ t := by
  intro cs
  induction cs with
  | nil => intro m t; exact ⟨rfl, rfl⟩
  | cons c rest ih =>
    intro m t
    show (List.foldl lexStep (lexStep ⟨m, t⟩ c) rest).mode =
        (List.foldl lexStep (lexStep ⟨m, []⟩ c) rest).mode ∧
      (List.foldl lexStep (lexStep ⟨m, t⟩ c) rest).toks =
        (List.foldl lexStep (lexStep ⟨m, []⟩ c) rest).toks ++ t
    have e1 : lexStep ⟨m, t⟩ c = ⟨(lexDelta m c).1, (lexDelta m c).2 ++ t⟩ := rfl
    have e2 : lexStep ⟨m, []⟩ c = ⟨(lexDelta m c).1, (lexDelta m c).2⟩ := by
      show (⟨(lexDelta m c).1, (lexDelta m c).2 ++ []⟩ : LexSt) = _
      rw [List.append_nil]
    rw [e1, e2]
    have h1 := ih (lexDelta m c).1 ((lexDelta m c).2 ++ t)
    have h2 := ih (lexDelta m c).1 (lexDelta m c).2
    exact ⟨by rw [h1.1, h2.1], by rw [h1.2, h2.2, List.append_assoc]⟩

/-- Thread an arbitrary token accumulator through a chunk whose lexing
from the empty accumulator is known. -/
theorem lexFold_chunk {cs : List Char} {m₁ m₂ : LexMode} {D : List Tok}
    (hclosed : List.foldl lexStep ⟨m₁, []⟩ cs = ⟨m₂, D⟩) (t : List Tok) :
    List.foldl lexStep ⟨m₁, t⟩ cs = ⟨m₂, D ++ t⟩ := by
  have hf := lexFold_mode_toks cs m₁ t
  have h1 := hf.1
  have h2 := hf.2
  rw [hclosed] at h1 h2
  rw [show (List.foldl lexStep ⟨m₁, t⟩ cs) = ⟨(List.foldl lexStep ⟨m₁, t⟩ cs).mode,
    (List.foldl lexStep ⟨m₁, t⟩ cs).toks⟩ from rfl, h1, h2]

/-- Safe characters pass through a string body without tokens or mode
changes. -/
theorem lexFold_safe :
    ∀ (cs : List Char), cs.all safeChar = true →
    ∀ (t : List Tok), List.foldl lexStep ⟨LexMode.strM, t⟩ cs = ⟨LexMode.strM, t⟩ := by
  intro cs
  induction cs with
  | nil => intro _ t; rfl
  | cons c rest ih =>
    intro hall t
    rw [List.all_cons, Bool.and_eq_true] at hall
    have hc : ¬(c = '\"') ∧ ¬(c = '\\') ∧ ¬(c.val < 32) := by
      have := hall.1
      simpa [safeChar] using this
    show List.foldl lexStep (lexStep ⟨LexMode.strM, t⟩ c) rest = _
    have hdelta : lexDelta LexMode.strM c = (LexMode.strM, []) := by
      unfold lexDelta
      rw [if_neg hc.1, if_neg hc.2.1, if_neg hc.2.2]
    have hstep : lexStep ⟨LexMode.strM, t⟩ c = ⟨LexMode.strM, t⟩ := by
      unfold lexStep
      rw [hdelta]
      rfl
    rw [hstep]

    exact ih hall.2 t

theorem digitChar_safe : ∀ (m : Nat), safeChar (Nat.digitChar m) = true
  | 0 => rfl
  | 1 => rfl
  | 2 => rfl
  | 3 => rfl
  | 4 => rfl
  | 5 => rfl
  | 6 => rfl
  | 7 => rfl
  | 8 => rfl
  | 9 => rfl
  | 10 => rfl
  | 11 => rfl
  | 12 => rfl
  | 13 => rfl
  | 14 => rfl
  | 15 => rfl
  | _ + 16 => rfl

theorem toDigitsCore_safe (b : Nat) :
    ∀ (fuel n : Nat) (acc : List Char), acc.all safeChar = true →
    (Nat.toDigitsCore b fuel n acc).all safeChar = true := by
  intro fuel
  induction fuel with
  | zero =>
    intro n acc h
    rw [Nat.toDigitsCore.eq_def]
    exact h
  | succ f ih =>
    intro n acc h
    rw [Nat.toDigitsCore.eq_def]
    have hcons : ((n % b).digitChar :: acc).all safeChar = true := by
      rw [List.all_cons, Bool.and_eq_true]
      exact ⟨digitChar_safe (n % b), h⟩
    show (if n / b = 0 then ((n % b).digitChar :: acc)
      else Nat.toDigitsCore b f (n / b) ((n % b).digitChar :: acc)).all safeChar = true
    split
    · exact hcons
    · exact ih (n / b) ((n % b).digitChar :: acc) hcons

theorem natRepr_safe (n : Nat) : safeStr (Nat.repr n) = true := by
  show (Nat.toDigits 10 n).all safeChar = true
  unfold Nat.toDigits
  exact toDigitsCore_safe 10 (n + 1) n [] rfl

set_option maxRecDepth 16384 in
theorem lexLit0 : List.foldl lexStep ⟨LexMode.top, []⟩ lit0.data =
    ⟨LexMode.strM, [Tok.colon, Tok.str, Tok.lbrace]⟩ := by rfl

set_option maxRecDepth 16384 in
theorem lexLit2 : List.foldl lexStep ⟨LexMode.strM, []⟩ lit2.data =
    ⟨LexMode.strM, [Tok.colon, Tok.str, Tok.comma, Tok.str]⟩ := by rfl

set_option maxRecDepth 16384 in
theorem lexLit3 : List.foldl lexStep ⟨LexMode.strM, []⟩ lit3.data =
    ⟨LexMode.strM, [Tok.colon, Tok.str, Tok.comma, Tok.str]⟩ := by rfl

set_option maxRecDepth 16384 in
theorem lexLit4 : List.foldl lexStep ⟨LexMode.strM, []⟩ lit4.data =
    ⟨LexMode.strM, [Tok.colon, Tok.str, Tok.comma, Tok.str, Tok.colon, Tok.str,
      Tok.comma, Tok.str]⟩ := by rfl

set_option maxRecDepth 16384 in
theorem lexLit5 : List.foldl lexStep ⟨LexMode.strM, []⟩ lit5.data =
    ⟨LexMode.strM, [Tok.colon, Tok.str, Tok.comma, Tok.str]⟩ := by rfl

set_option maxRecDepth 16384 in
theorem lexLit7 : List.foldl lexStep ⟨LexMode.strM, []⟩ lit7.data =
    ⟨LexMode.top, [Tok.rbrace, Tok.str]⟩ := by rfl

set_option maxRecDepth 16384 in
theorem safeLit1 : lit1.data.all safeChar = true := by rfl

/-- Lexing one `/json/list` entry with `safeChar` names yields exactly
`entryToks` (reversed onto the accumulator) and returns to value
position. -/
theorem lexEntry (port : Nat) (v : PageView)
    (hpid : safeStr v.pageId = true) (hname : safeStr v.pageName = true) (t : List Tok) :
    List.foldl lexStep ⟨LexMode.top, t⟩ (viewItem port v).data =
      ⟨LexMode.top, entryToks.reverse ++ t⟩ := by
  have hdata : (viewItem port v).data =
      lit0.data ++ ((Nat.repr port).data ++ (lit1.data ++ (v.pageId.data ++ (lit2.data ++
        (v.pageId.data ++ (lit3.data ++ (v.pageName.data ++ (lit4.data ++ (v.pageId.data ++
        (lit5.data ++ ((Nat.repr port).data ++ (lit1.data ++ (v.pageId.data ++
        lit7.data))))))))))))) := by
    simp [viewItem, String.data_append]
  rw [hdata]
  simp only [List.foldl_append]
  rw [lexFold_chunk lexLit0,
      lexFold_safe (Nat.repr port).data (natRepr_safe port),
      lexFold_safe lit1.data safeLit1,
      lexFold_safe v.pageId.data hpid,
      lexFold_chunk lexLit2,
      lexFold_safe v.pageId.data hpid,
      lexFold_chunk lexLit3,
      lexFold_safe v.pageName.data hname,
      lexFold_chunk lexLit4,
      lexFold_safe v.pageId.data hpid,
      lexFold_chunk lexLit5,
      lexFold_safe (Nat.repr port).data (natRepr_safe port),
      lexFold_safe lit1.data safeLit1,
      lexFold_safe v.pageId.data hpid,
      lexFold_chunk lexLit7]
  simp [entryToks]

/-- Lexing the comma-join of one or more entries. -/
theorem lexJoin (port : Nat) :
    ∀ (l : List PageView) (v0 : PageView),
    safeStr v0.pageId = true → safeStr v0.pageName = true →
    (∀ v ∈ l, safeStr v.pageId = true ∧ safeStr v.pageName = true) →
    ∀ t, List.foldl lexStep ⟨LexMode.top, t⟩
        (joinComma ((v0 :: l).map (viewItem port))).data =
      ⟨LexMode.top, (arrayToks (l.length + 1)).reverse ++ t⟩ := by
  intro l
  induction l with
  | nil =>
    intro v0 h1 h2 _ t
    show List.foldl lexStep ⟨LexMode.top, t⟩ (viewItem port v0).data = _
    rw [lexEntry port v0 h1 h2 t]
    rfl
  | cons v1 rest ih =>
    intro v0 h1 h2 hall t
    show List.foldl lexStep ⟨LexMode.top, t⟩
        ((viewItem port v0 ++ "," ++ joinComma ((v1 :: rest).map (viewItem port))).data) = _
    rw [show (viewItem port v0 ++ "," ++ joinComma ((v1 :: rest).map (viewItem port))).data =
        (viewItem port v0).data ++ ((",".data) ++
          (joinComma ((v1 :: rest).map (viewItem port))).data) from by
      simp [String.data_append]]
    simp only [List.foldl_append]
    rw [lexEntry port v0 h1 h2 t,
        lexFold_chunk (show List.foldl lexStep ⟨LexMode.top, []⟩ (",".data) =
          ⟨LexMode.top, [Tok.comma]⟩ from rfl),
        ih v1 (hall v1 (List.mem_cons_self v1 rest)).1
          (hall v1 (List.mem_cons_self v1 rest)).2
          (fun v hv => hall v (List.mem_cons_of_mem v1 hv))]
    show (⟨LexMode.top, (arrayToks (rest.length + 1)).reverse ++
        ([Tok.comma] ++ (entryToks.reverse ++ t))⟩ : LexSt) =
      ⟨LexMode.top, (arrayToks (rest.length + 1 + 1)).reverse ++ t⟩
    rw [show arrayToks (rest.length + 1 + 1) =
        entryToks ++ Tok.comma :: arrayToks (rest.length + 1) from rfl]
    simp

/-- Lexing the whole `/json/list` body: one array of entry objects. -/
theorem lexBody (port : Nat) (vs : List PageView)
    (hvs : ∀ v ∈ vs, safeStr v.pageId = true ∧ safeStr v.pageName = true) :
    lexJson (jsonListBody port vs).data =
      some (Tok.lbrack :: (arrayToks vs.length ++ [Tok.rbrack])) := by
  cases vs with
  | nil => rfl
  | cons v0 rest =>
    unfold lexJson jsonListBody
    rw [show ("[" ++ joinComma (((v0 :: rest)).map (viewItem port)) ++ "]").data =
        "[".data ++ ((joinComma (((v0 :: rest)).map (viewItem port))).data ++ "]".data) from by
      simp [String.data_append]]
    simp only [List.foldl_append]
    rw [show List.foldl lexStep ⟨LexMode.top, []⟩ ("[".data) =
        ⟨LexMode.top, [Tok.lbrack]⟩ from rfl]
    rw [lexJoin port rest v0 (hvs v0 (List.mem_cons_self v0 rest)).1
        (hvs v0 (List.mem_cons_self v0 rest)).2
        (fun v hv => hvs v (List.mem_cons_of_mem v0 hv)) [Tok.lbrack]]
    rw [show List.foldl lexStep
        ⟨LexMode.top, (arrayToks (rest.length + 1)).reverse ++ [Tok.lbrack]⟩ ("]".data) =
        ⟨LexMode.top, Tok.rbrack :: ((arrayToks (rest.length + 1)).reverse ++ [Tok.lbrack])⟩
        from rfl]
    show some ((Tok.rbrack :: ((arrayToks (rest.length + 1)).reverse ++
        [Tok.lbrack])).reverse) = _
    simp

theorem grun_append (a : List Tok) :
    ∀ (g : GSt) (b : List Tok),
    grun g (a ++ b) =
      (match grun g a with
       | none => none
       | some g' => grun g' b) := by
  induction a with
  | nil => intro g b; rfl
  | cons x xs ih =>
    intro g b
    show grun g (x :: (xs ++ b)) = _
    cases hs : gstep g x with
    | none => simp [grun, hs]
    | some g' => simp [grun, hs, ih g' b]

theorem gEntryVal : grun ⟨[Frame.arrF], Expect.val⟩ entryToks =
    some ⟨[Frame.arrF], Expect.afterVal⟩ := by rfl

theorem gEntryValOrEnd : grun ⟨[Frame.arrF], Expect.valOrEnd⟩ entryToks =
    some ⟨[Frame.arrF], Expect.afterVal⟩ := by rfl

theorem gArrVal : ∀ (n : Nat), grun ⟨[Frame.arrF], Expect.val⟩ (arrayToks (n + 1)) =
    some ⟨[Frame.arrF], Expect.afterVal⟩ := by
  intro n
  induction n with
  | zero => exact gEntryVal
  | succ m ih =>
    show grun ⟨[Frame.arrF], Expect.val⟩ (arrayToks (m + 2)) = _
    rw [show arrayToks (m + 2) = entryToks ++ Tok.comma :: arrayToks (m + 1) from rfl,
        grun_append, gEntryVal]
    exact ih

theorem gArrValOrEnd (n : Nat) :
    grun ⟨[Frame.arrF], Expect.valOrEnd⟩ (arrayToks (n + 1)) =
      some ⟨[Frame.arrF], Expect.afterVal⟩ := by
  cases n with
  | zero => exact gEntryValOrEnd
  | succ m =>
    rw [show arrayToks (m + 2) = entryToks ++ Tok.comma :: arrayToks (m + 1) from rfl,
        grun_append, gEntryValOrEnd]
    exact gArrVal m

theorem jsonWF_of (s : String) (T : List Tok) (h1 : lexJson s.data = some T)
    (h2 : grun ⟨[], Expect.val⟩ T = some ⟨[], Expect.done⟩) : jsonWF s = true := by
  unfold jsonWF
  rw [h1]
  dsimp only
  rw [h2]

/-- The `/json/list` body is well-formed JSON whenever every page id and
name avoids JSON-special characters. -/
theorem jsonListBody_wf (port : Nat) (vs : List PageView)
    (hvs : ∀ v ∈ vs, safeStr v.pageId = true ∧ safeStr v.pageName = true) :
    jsonWF (jsonListBody port vs) = true := by
  cases vs with
  | nil => rfl
  | cons v0 rest =>
    apply jsonWF_of _ (Tok.lbrack :: (arrayToks (rest.length + 1) ++ [Tok.rbrack]))
    · exact lexBody port (v0 :: rest) hvs
    · show grun ⟨[Frame.arrF], Expect.valOrEnd⟩ (arrayToks (rest.length + 1) ++ [Tok.rbrack]) =
        some ⟨[], Expect.done⟩
      rw [grun_append, gArrValOrEnd rest.length]
      rfl

/-! ## Registry well-formedness (for C7) -/

theorem regStep_wf (views : List (String × PageView)) (op : RegOp)
    (h : (views.map Prod.fst).Nodup ∧ ∀ p ∈ views, p.2.pageId = p.1) :
    ((regStep views op).map Prod.fst).Nodup ∧
    ∀ p ∈ regStep views op, p.2.pageId = p.1 := by
  cases op with
  | dispose v =>
    refine ⟨?_, ?_⟩
    · exact h.1.sublist ((List.filter_sublist views).map Prod.fst)
    · intro p hp
      exact h.2 p (List.mem_of_mem_filter hp)
  | populate v =>
    refine ⟨?_, ?_⟩
    · show ((views.filter (fun p => decide (p.1 ≠ v.pageId)) ++ [(v.pageId, v)]).map
        Prod.fst).Nodup
      rw [List.map_append, List.nodup_append]
      refine ⟨h.1.sublist ((List.filter_sublist views).map Prod.fst), by simp, ?_⟩
      intro k hk hk2
      simp at hk2
      obtain ⟨p, hp, hfst⟩ := List.mem_map.mp hk
      rw [List.mem_filter] at hp
      have := hp.2
      rw [← hfst] at hk2
      simp [hk2] at this
    · intro p hp
      rw [show regStep views (RegOp.populate v) =
        views.filter (fun q => decide (q.1 ≠ v.pageId)) ++ [(v.pageId, v)] from rfl] at hp
      rw [List.mem_append] at hp
      cases hp with
      | inl hin => exact h.2 p (List.mem_of_mem_filter hin)
      | inr hone =>
        rw [List.mem_singleton] at hone
        subst hone
        rfl

theorem regRun_wf :
    ∀ (ops : List RegOp) (acc : List (String × PageView)),
    ((acc.map Prod.fst).Nodup ∧ ∀ p ∈ acc, p.2.pageId = p.1) →
    (((List.foldl regStep acc ops).map Prod.fst).Nodup ∧
      ∀ p ∈ List.foldl regStep acc ops, p.2.pageId = p.1) := by
  intro ops
  induction ops with
  | nil => intro acc h; exact h
  | cons op rest ih =>
    intro acc h
    exact ih (regStep acc op) (regStep_wf acc op h)

/-! ## C7 — `GET /json/list` -/

set_option maxRecDepth 65536 in
/-- **C7 counterexample.** One registered page whose name contains a
double quote: the interpolated body fails JSON well-formedness (the
quote ends the `title` string early), contradicting "the output is valid
JSON in every case". -/
theorem c7_counterexample_invalid_json :
    jsonWF (jsonListBody 9222 [⟨"p1", "bad\"name"⟩]) = false := by rfl

theorem string_eq_of_data {s t : String} (h : s.data = t.data) : s = t := by
  cases s
  cases t
  cases h
  rfl

set_option maxRecDepth 65536 in
/-- **C7 (amended).** `/json/list`: with zero pages the body is the valid
JSON array `[]`; the emitted `id` fields (one per registered view) are
pairwise distinct for every registry reachable by populate/dispose; every
entry embeds the advertised `ws://localhost:<port>/ws/<PageId>` debugger
URL; and the output is well-formed JSON whenever page ids and titles
contain no JSON-special characters (a double quote, a backslash or a
control character in a name breaks it, since the code interpolates
without escaping). -/
theorem c7_json_list :
    (∀ port : Nat, jsonListBody port [] = "[]" ∧ jsonWF "[]" = true) ∧
    (∀ ops : List RegOp, (pageIds (regRun ops)).Nodup) ∧
    (∀ (port : Nat) (v : PageView), ∃ a b : String,
      viewItem port v = a ++ wsUrl port v.pageId ++ b) ∧
    (∀ (port : Nat) (vs : List PageView),
      (∀ v ∈ vs, safeStr v.pageId = true ∧ safeStr v.pageName = true) →
      jsonWF (jsonListBody port vs) = true) := by
  refine ⟨?_, ?_, ?_, ?_⟩
  · intro port
    exact ⟨rfl, rfl⟩
  · intro ops
    have h := regRun_wf ops [] (by simp)
    show ((List.foldl regStep [] ops).map (fun p => p.2.pageId)).Nodup
    rw [List.map_congr_left h.2]
    exact h.1
  · intro port v
    refine ⟨lit0 ++ Nat.repr port ++ lit1 ++ v.pageId ++ lit2 ++ v.pageId ++ lit3 ++
      v.pageName ++ lit4 ++ v.pageId ++ "\",\n              \"webSocketDebuggerUrl\": \"",
      lit7, ?_⟩
    apply string_eq_of_data
    simp [viewItem, wsUrl, lit0, lit1, lit2, lit3, lit4, lit5, lit7, String.data_append]
  · intro port vs hvs
    exact jsonListBody_wf port vs hvs

set_option maxRecDepth 65536 in
/-- C7 applied at a concrete safe page: the body is well-formed JSON. -/
theorem c7_json_list_witness :
    jsonWF (jsonListBody 9222 [⟨"View#1", "View"⟩]) = true :=
  c7_json_list.2.2.2 9222 [⟨"View#1", "View"⟩] (by decide)

end WotstatCDP
